import Mathlib

/-!
Shallow embedding of the HolidayManager request service and its dashboard
filtering logic.

Sources embedded here:
* `src/app/api/user/[userid]/route.ts` — the `POST` (create request) and
  `GET` (list a user's requests) handlers;
* the `PATCH` (update status) and `DELETE` (delete request) handlers of the
  `/api/holidays/[id]` route;
* the client-side date-range filters of the admin dashboard (overlap
  variant) and the user dashboard (containment variant);
* the `calculateDays` helper shared by the dashboard pages;
* the Drizzle schema (`employee_request` table, `request_status` and
  `request_type` enums).

Modelling conventions:
* A calendar date (`YYYY-MM-DD` string in the source) is represented by its
  epoch-day number (`Date := Int`).  JavaScript parses such a string as UTC
  midnight, so `Date.getTime()` is exactly `day * 86400000` and comparison
  of `Date` objects is comparison of those products; `getTime` below mirrors
  this.  `daysFromCivil` converts a civil `y-m-d` triple to its epoch-day
  number so that the concrete dates appearing in the spec are expressible.
* The relational store is a `List EmployeeRequest`; the set of existing
  users is the list of their ids.  Drizzle's `update/delete ... returning()`
  returns the affected rows and raises nothing when no row matches; this is
  modelled by `List.map` / `List.filter` over the store.
* A JSON body field that may be absent is an `Option`; JavaScript's
  falsiness test `!x` on a string field holds exactly for a missing field
  or the empty string (`falsy` below).
* Fallible handlers return `Except String`, the error string being the one
  the handler puts in its error response.
-/

/-- A calendar date, as the number of days since 1970-01-01. -/
abbrev Date := Int

/-- `new Date(s).getTime()` for a calendar-date string `s`: UTC midnight of
that day, in milliseconds.  Comparison of JS `Date` objects compares these
values. -/
def getTime (d : Date) : Int := d * 86400000

/-- Epoch-day number of the civil date `y-m-d` (days-from-civil algorithm).
All intermediate quantities are non-negative for the years used here, so the
rounding convention of integer division does not matter. -/
def daysFromCivil (y m d : Int) : Int :=
  let y' := if m ≤ 2 then y - 1 else y
  let era := (if 0 ≤ y' then y' else y' - 399) / 400
  let yoe := y' - era * 400
  let mp := (m + 9) % 12
  let doy := (153 * mp + 2) / 5 + d - 1
  let doe := yoe * 365 + yoe / 4 - yoe / 100 + doy
  era * 146097 + doe - 719468

/-- Convenience constructor for concrete dates. -/
def date (y m d : Int) : Date := daysFromCivil y m d

/-- The `request_status` enum of the schema. -/
inductive RequestStatus
  | accepted
  | denied
  | pending
deriving DecidableEq, Repr

/-- One row of the `employee_request` table.  The `type` column is kept as
the raw string the handler inserts. -/
structure EmployeeRequest where
  id : String
  userid : String
  name : String
  email : String
  type : String
  reason : String
  startDate : Date
  endDate : Date
  status : RequestStatus
deriving DecidableEq, Repr

/-- The JSON body of the create-request `POST`.  The handler destructures
only `name, email, type, reason, startDate, endDate`; a `status` field sent
by the caller is present in the body but never read. -/
structure RequestBody where
  name : Option String
  email : Option String
  type : Option String
  reason : Option String
  startDate : Option Date
  endDate : Option Date
  status : Option String
deriving DecidableEq, Repr

/-- JavaScript falsiness of an optional string field: `!x` is true exactly
when the field is absent (`undefined`) or the empty string. -/
def falsy : Option String → Bool
  | none => true
  | some s => s = ""

/-- The `POST /api/user/[userid]` handler (create request).

`users` is the set of existing user ids (the `userExists` select),
`newId` the id the store generates for the inserted row, and `emailOk`
whether `sendRequestEmail` succeeds.  The email is sent after the insert
inside its own `try/catch`, so a failure (`emailOk = false`) is logged and
swallowed and the response is built from the inserted row either way; the
result therefore does not mention `emailOk`.

Returns the store after the insert together with the created row
(`newRequest[0]` of the 201 response). -/
def POST (users : List String) (store : List EmployeeRequest) (newId : String)
    (userid : String) (body : RequestBody) (emailOk : Bool) :
    Except String (List EmployeeRequest × EmployeeRequest) :=
  if falsy body.name || falsy body.email || falsy body.reason ||
      body.startDate.isNone || body.endDate.isNone || falsy body.type then
    .error "All fields are required"
  else
    let start := body.startDate.getD 0
    let «end» := body.endDate.getD 0
    if getTime «end» < getTime start then
      .error "End date must be after start date"
    else if !(users.contains userid) then
      .error "User does not exist"
    else
      let newRequest : EmployeeRequest :=
        { id := newId
          userid := userid
          name := body.name.getD ""
          email := body.email.getD ""
          type := body.type.getD ""
          reason := body.reason.getD ""
          startDate := start
          endDate := «end»
          status := RequestStatus.pending }
      .ok (store ++ [newRequest], newRequest)

/-- `['accepted', 'denied', 'pending'].includes(status)`, returning the enum
member when the string is in the enumeration. -/
def parseStatus (s : String) : Option RequestStatus :=
  if s = "accepted" then some RequestStatus.accepted
  else if s = "denied" then some RequestStatus.denied
  else if s = "pending" then some RequestStatus.pending
  else none

/-- The string of a status, as stored in JSON bodies. -/
def statusStr : RequestStatus → String
  | .accepted => "accepted"
  | .denied => "denied"
  | .pending => "pending"

/-- The `PATCH /api/holidays/[id]` handler (update status).

`statusParam` is the `status` field of the JSON body.  After the
`!status || !includes(status)` guard, the store updates `{ status }` on
every row whose id matches and `returning()` yields the affected rows.
When a row matched, `updatedRequest[0]` is that row and the handler answers
with it.  When no row matched, `updatedRequest[0]` is `undefined` and
`NextResponse.json(undefined)` throws a `TypeError` (`undefined` is not
JSON-serializable); the throw lands in the handler's `catch`, which answers
with the generic `"Failed to update request"` error response. -/
def PATCH (store : List EmployeeRequest) (id : String)
    (statusParam : Option String) :
    Except String (List EmployeeRequest × Option EmployeeRequest) :=
  if falsy statusParam then
    .error "Invalid status. Must be 'accepted', 'denied', or 'pending'"
  else
    match parseStatus (statusParam.getD "") with
    | none => .error "Invalid status. Must be 'accepted', 'denied', or 'pending'"
    | some newStatus =>
      let newStore := store.map fun r =>
        if r.id = id then { r with status := newStatus } else r
      match (newStore.filter fun r => decide (r.id = id)).head? with
      | some updated => .ok (newStore, some updated)
      | none => .error "Failed to update request"

/-- The `DELETE /api/holidays/[id]` handler.  The store removes every row
whose id matches; the handler returns its success message without checking
whether any row was in fact deleted. -/
def DELETE (store : List EmployeeRequest) (id : String) :
    Except String (List EmployeeRequest × String) :=
  let newStore := store.filter fun r => decide (r.id ≠ id)
  .ok (newStore, "Request deleted successfully")

/-- Date-range predicate of the admin dashboard (overlap variant), the body
of the `filtered.filter(r => ...)` callback: with only `dateFrom` set keep
rows ending on or after it, with only `dateTo` set keep rows starting on or
before it, with both set keep rows whose span overlaps the window. -/
def adminDateKeep (dateFrom dateTo : Option Date) (r : EmployeeRequest) : Bool :=
  match dateFrom, dateTo with
  | some fromDate, none => decide (getTime fromDate ≤ getTime r.endDate)
  | none, some toDate => decide (getTime r.startDate ≤ getTime toDate)
  | some fromDate, some toDate =>
      decide (getTime r.startDate ≤ getTime toDate) &&
      decide (getTime fromDate ≤ getTime r.endDate)
  | none, none => true

/-- Date-range stage of the admin dashboard filter effect: applied only when
at least one bound is set (`if (filters.dateFrom || filters.dateTo)`). -/
def adminDateFilter (dateFrom dateTo : Option Date)
    (rs : List EmployeeRequest) : List EmployeeRequest :=
  if dateFrom.isSome || dateTo.isSome then
    rs.filter (adminDateKeep dateFrom dateTo)
  else rs

/-- Date-range stage of the user dashboard filter effect (containment
variant): two independent filters, `startDate >= fromDate` when `dateFrom`
is set and `endDate <= toDate` when `dateTo` is set. -/
def userDateFilter (dateFrom dateTo : Option Date)
    (rs : List EmployeeRequest) : List EmployeeRequest :=
  let rs1 := match dateFrom with
    | some fromDate => rs.filter fun r => decide (getTime fromDate ≤ getTime r.startDate)
    | none => rs
  match dateTo with
  | some toDate => rs1.filter fun r => decide (getTime r.endDate ≤ getTime toDate)
  | none => rs1

/-- `Math.ceil(a / b)` for natural `a` and positive natural `b`. -/
def mathCeilDiv (a b : Nat) : Nat := (a + b - 1) / b

/-- The `calculateDays` helper of the dashboard pages:
`Math.ceil(Math.abs(end.getTime() - start.getTime()) / (1000*60*60*24)) + 1`. -/
def calculateDays (startDate endDate : Date) : Nat :=
  let diffTime := (getTime endDate - getTime startDate).natAbs
  mathCeilDiv diffTime (1000 * 60 * 60 * 24) + 1

section SanityChecks

example : date 1970 1 1 = 0 := by decide
example : date 1970 1 2 = 1 := by decide
example : date 2024 1 2 - date 2024 1 1 = 1 := by decide
example : date 2024 3 1 - date 2024 2 28 = 2 := by decide

end SanityChecks

/-- Inversion for a successful `POST`: the created row is appended to the
store, its `status` is `pending`, and its fields come from the body. -/
theorem POST_ok_inv {users store newId userid body emailOk st' r}
    (h : POST users store newId userid body emailOk = .ok (st', r)) :
    st' = store ++ [r] ∧ r.status = RequestStatus.pending := by
  simp only [POST] at h
  split_ifs at h
  all_goals first
  | exact Except.noConfusion h
  | (simp only [Except.ok.injEq, Prod.mk.injEq] at h
     obtain ⟨hst, hr⟩ := h
     subst hst hr
     exact ⟨rfl, rfl⟩)

/-- C1: for every input accepted by `POST`, the inserted and returned
request has status `pending`, whatever `status` value the caller put in the
body (the body's `status` field is universally quantified and never read). -/
theorem post_status_always_pending
    (users : List String) (store : List EmployeeRequest) (newId userid : String)
    (body : RequestBody) (emailOk : Bool)
    (st' : List EmployeeRequest) (r : EmployeeRequest)
    (h : POST users store newId userid body emailOk = .ok (st', r)) :
    r.status = RequestStatus.pending ∧ r ∈ st' := by
  obtain ⟨hst, hs⟩ := POST_ok_inv h
  subst hst
  exact ⟨hs, by simp⟩

/-- Witness for C1 at a concrete input whose body carries
`status = "accepted"`: the created request is nevertheless `pending`. -/
theorem post_status_always_pending_witness :
    (⟨"r1", "u1", "Alice", "a@x.com", "holiday", "family trip",
        date 2024 6 10, date 2024 6 12, RequestStatus.pending⟩ :
      EmployeeRequest).status = RequestStatus.pending ∧
    (⟨"r1", "u1", "Alice", "a@x.com", "holiday", "family trip",
        date 2024 6 10, date 2024 6 12, RequestStatus.pending⟩ :
      EmployeeRequest) ∈
      [(⟨"r1", "u1", "Alice", "a@x.com", "holiday", "family trip",
          date 2024 6 10, date 2024 6 12, RequestStatus.pending⟩ :
        EmployeeRequest)] :=
  post_status_always_pending ["u1"] [] "r1" "u1"
    ⟨some "Alice", some "a@x.com", some "holiday", some "family trip",
      some (date 2024 6 10), some (date 2024 6 12), some "accepted"⟩ true
    _ _ (by rfl)

/-- C6 counterexample: a `reason` of `"   "` (whitespace only, hence empty
after trimming) passes the `!reason` falsiness check, so `POST` succeeds and
inserts the request instead of failing with a validation error. -/
theorem post_whitespace_reason_accepted :
    POST ["u1"] [] "r1" "u1"
      ⟨some "Alice", some "a@x.com", some "holiday", some "   ",
        some (date 2024 6 10), some (date 2024 6 12), none⟩ true
      = .ok
        ([⟨"r1", "u1", "Alice", "a@x.com", "holiday", "   ",
            date 2024 6 10, date 2024 6 12, RequestStatus.pending⟩],
          ⟨"r1", "u1", "Alice", "a@x.com", "holiday", "   ",
            date 2024 6 10, date 2024 6 12, RequestStatus.pending⟩) := by
  rfl

/-- C6 (amended): `POST` fails with the validation error when the `reason`
field is missing or is the empty string; the handler does not trim, so a
whitespace-only reason is accepted. -/
theorem post_reason_required_nonempty
    (users : List String) (store : List EmployeeRequest) (newId userid : String)
    (body : RequestBody) (emailOk : Bool)
    (h : body.reason = none ∨ body.reason = some "") :
    POST users store newId userid body emailOk = .error "All fields are required" := by
  have hf : falsy body.reason = true := by
    rcases h with h | h <;> simp [falsy, h]
  simp [POST, hf]

/-- Witness for the amended C6: a body with no `reason` field is rejected. -/
theorem post_reason_required_nonempty_witness :
    POST ["u1"] [] "r1" "u1"
      ⟨some "Alice", some "a@x.com", some "holiday", none,
        some (date 2024 6 10), some (date 2024 6 12), none⟩ true
      = .error "All fields are required" :=
  post_reason_required_nonempty ["u1"] [] "r1" "u1" _ true (Or.inl rfl)

/-- C7: failure of the notification email does not fail `POST`: whenever the
handler succeeds with the email going through, it returns the identical
result with the email send throwing, and the created request is in the
resulting store either way (the send is inside its own `try/catch`, after
the insert). -/
theorem post_email_failure_harmless
    (users : List String) (store : List EmployeeRequest) (newId userid : String)
    (body : RequestBody)
    (st' : List EmployeeRequest) (r : EmployeeRequest)
    (h : POST users store newId userid body true = .ok (st', r)) :
    POST users store newId userid body false = .ok (st', r) ∧ r ∈ st' := by
  have he : POST users store newId userid body false
      = POST users store newId userid body true := rfl
  refine ⟨he.trans h, ?_⟩
  obtain ⟨hst, _⟩ := POST_ok_inv h
  subst hst
  simp

/-- Witness for C7 at a concrete valid input. -/
theorem post_email_failure_harmless_witness :
    POST ["u1"] [] "r2" "u1"
      ⟨some "Bob", some "b@x.com", some "halfday", some "dentist",
        some (date 2024 7 1), some (date 2024 7 1), none⟩ false
      = .ok
        ([⟨"r2", "u1", "Bob", "b@x.com", "halfday", "dentist",
            date 2024 7 1, date 2024 7 1, RequestStatus.pending⟩],
          ⟨"r2", "u1", "Bob", "b@x.com", "halfday", "dentist",
            date 2024 7 1, date 2024 7 1, RequestStatus.pending⟩) ∧
    (⟨"r2", "u1", "Bob", "b@x.com", "halfday", "dentist",
        date 2024 7 1, date 2024 7 1, RequestStatus.pending⟩ : EmployeeRequest) ∈
      [(⟨"r2", "u1", "Bob", "b@x.com", "halfday", "dentist",
          date 2024 7 1, date 2024 7 1, RequestStatus.pending⟩ : EmployeeRequest)] :=
  post_email_failure_harmless ["u1"] [] "r2" "u1"
    ⟨some "Bob", some "b@x.com", some "halfday", some "dentist",
      some (date 2024 7 1), some (date 2024 7 1), none⟩
    _ _ (by rfl)

/-- C3 counterexample: deleting an id absent from the store does not fail —
the handler returns its success message on the empty store. -/
theorem delete_missing_id_no_error :
    DELETE [] "nonexistent" = .ok ([], "Request deleted successfully") := by
  rfl

/-- C3 (amended): `DELETE` always succeeds, whether or not the id is
present (on an absent id the store is unchanged and the handler still
reports success); when the id exists, the matching request is removed
permanently, so no request with that id remains and every other request
survives. -/
theorem delete_removes_permanently
    (store : List EmployeeRequest) (id : String) :
    ∃ st', DELETE store id = .ok (st', "Request deleted successfully") ∧
      (∀ r ∈ st', r.id ≠ id) ∧
      (∀ r ∈ store, r.id ≠ id → r ∈ st') ∧
      ((∀ r ∈ store, r.id ≠ id) → st' = store) := by
  refine ⟨store.filter fun r => decide (r.id ≠ id), rfl, ?_, ?_, ?_⟩
  · intro r hr
    simpa using (List.mem_filter.mp hr).2
  · intro r hr hne
    exact List.mem_filter.mpr ⟨hr, by simpa using hne⟩
  · intro hall
    apply List.filter_eq_self.mpr
    intro r hr
    simpa using hall r hr
/-- Witness for the amended C3: on a two-element store, deleting `"a"`
keeps exactly the other request. -/
theorem delete_removes_permanently_witness :
    ∃ st',
      DELETE
        [⟨"a", "u1", "Alice", "a@x.com", "holiday", "trip",
            date 2024 1 1, date 2024 1 2, RequestStatus.pending⟩,
         ⟨"b", "u2", "Bob", "b@x.com", "other", "errand",
            date 2024 2 1, date 2024 2 3, RequestStatus.denied⟩]
        "a" = .ok (st', "Request deleted successfully") ∧
      (∀ r ∈ st', r.id ≠ "a") ∧
      (∀ r ∈
        [(⟨"a", "u1", "Alice", "a@x.com", "holiday", "trip",
            date 2024 1 1, date 2024 1 2, RequestStatus.pending⟩ : EmployeeRequest),
         ⟨"b", "u2", "Bob", "b@x.com", "other", "errand",
            date 2024 2 1, date 2024 2 3, RequestStatus.denied⟩],
        r.id ≠ "a" → r ∈ st') ∧
      ((∀ r ∈
        [(⟨"a", "u1", "Alice", "a@x.com", "holiday", "trip",
            date 2024 1 1, date 2024 1 2, RequestStatus.pending⟩ : EmployeeRequest),
         ⟨"b", "u2", "Bob", "b@x.com", "other", "errand",
            date 2024 2 1, date 2024 2 3, RequestStatus.denied⟩],
        r.id ≠ "a") →
        st' =
          [⟨"a", "u1", "Alice", "a@x.com", "holiday", "trip",
              date 2024 1 1, date 2024 1 2, RequestStatus.pending⟩,
           ⟨"b", "u2", "Bob", "b@x.com", "other", "errand",
              date 2024 2 1, date 2024 2 3, RequestStatus.denied⟩]) :=
  delete_removes_permanently _ "a"

/-- C4 counterexample: updating the status of an id absent from the store
fails, but not with a not-found signal: the update matches no row,
serializing the `undefined` updated row throws, and the handler's catch-all
answers with the generic `"Failed to update request"` error. -/
theorem patch_missing_id_generic_error :
    PATCH [] "nonexistent" (some "accepted")
      = .error "Failed to update request" := by
  rfl

/-- C4 (amended): for every valid `newStatus`, `PATCH` on an id that
references no request in the store does fail, but with the generic
`"Failed to update request"` error of the handler's catch-all (raised when
serializing the `undefined` updated row), not with a NotFoundError; the
zero-row update leaves every request unchanged. -/
theorem patch_missing_id_generic_failure
    (store : List EmployeeRequest) (id s : String) (v : RequestStatus)
    (hv : parseStatus s = some v) (habs : ∀ r ∈ store, r.id ≠ id) :
    PATCH store id (some s) = .error "Failed to update request" := by
  have hs : s ≠ "" := by
    rintro rfl
    simp [parseStatus] at hv
  have hfalsy : falsy (some s) = false := by simp [falsy, hs]
  have hmap : (store.map fun r =>
      if r.id = id then { r with status := v } else r) = store := by
    have h1 : (store.map fun r =>
        if r.id = id then { r with status := v } else r) = store.map fun r => r :=
      List.map_congr_left fun r hr => by rw [if_neg (habs r hr)]
    simpa using h1
  have hfil : ((store.map fun r =>
      if r.id = id then { r with status := v } else r).filter
        fun r => decide (r.id = id)) = [] := by
    rw [hmap]
    refine List.filter_eq_nil_iff.mpr fun r hr => by simpa using habs r hr
  simp only [PATCH, hfalsy, Bool.false_eq_true, if_false, Option.getD_some, hv,
    hfil, List.head?_nil]

/-- Witness for the amended C4: a store holding only id `"b"` makes a
`PATCH` of id `"a"` fail with the generic error. -/
theorem patch_missing_id_generic_failure_witness :
    PATCH
      [⟨"b", "u2", "Bob", "b@x.com", "other", "errand",
          date 2024 2 1, date 2024 2 3, RequestStatus.denied⟩]
      "a" (some "accepted")
      = .error "Failed to update request" :=
  patch_missing_id_generic_failure _ "a" "accepted" RequestStatus.accepted rfl
    (by intro r hr; simp at hr; subst hr; simp)

/-- C5: the status-update handler rejects any `newStatus` outside the
enumeration with its validation error, whatever the store contains (so
independent of any request's current status); and for an in-enum
`newStatus` no transition is forbidden — every request matching the id,
whatever its current status, is updated to the new one. -/
theorem patch_status_validation
    (store : List EmployeeRequest) (id s : String) :
    (parseStatus s = none →
      PATCH store id (some s) =
        .error "Invalid status. Must be 'accepted', 'denied', or 'pending'") ∧
    (∀ v, parseStatus s = some v → ∀ r ∈ store, r.id = id →
      ∃ st' u, PATCH store id (some s) = .ok (st', u) ∧
        { r with status := v } ∈ st') := by
  constructor
  · intro hn
    by_cases hs : s = ""
    · subst hs; rfl
    · have hfalsy : falsy (some s) = false := by simp [falsy, hs]
      simp [PATCH, hfalsy, hn]
  · intro v hv r hr hid
    have hs : s ≠ "" := by
      rintro rfl
      simp [parseStatus] at hv
    have hfalsy : falsy (some s) = false := by simp [falsy, hs]
    have hmem : { r with status := v } ∈
        store.map fun r' => if r'.id = id then { r' with status := v } else r' :=
      List.mem_map.mpr ⟨r, hr, by rw [if_pos hid]⟩
    have hfilmem : { r with status := v } ∈
        ((store.map fun r' => if r'.id = id then { r' with status := v } else r').filter
          fun r' => decide (r'.id = id)) :=
      List.mem_filter.mpr ⟨hmem, by simp [hid]⟩
    rcases hx : ((store.map fun r' =>
        if r'.id = id then { r' with status := v } else r').filter
          fun r' => decide (r'.id = id)).head? with _ | x
    · rw [List.head?_eq_none_iff] at hx
      rw [hx] at hfilmem
      cases hfilmem
    · refine ⟨store.map fun r' => if r'.id = id then { r' with status := v } else r',
        some x, ?_, hmem⟩
      simp only [PATCH, hfalsy, Bool.false_eq_true, if_false, Option.getD_some, hv, hx]

/-- Witness for C5: `"cancelled"` is rejected on a store whose only request
is `denied`; `"accepted"` re-approves that same denied request. -/
theorem patch_status_validation_witness :
    PATCH
      [⟨"a", "u1", "Alice", "a@x.com", "holiday", "trip",
          date 2024 1 1, date 2024 1 2, RequestStatus.denied⟩]
      "a" (some "cancelled")
      = .error "Invalid status. Must be 'accepted', 'denied', or 'pending'" ∧
    ∃ st' u,
      PATCH
        [⟨"a", "u1", "Alice", "a@x.com", "holiday", "trip",
            date 2024 1 1, date 2024 1 2, RequestStatus.denied⟩]
        "a" (some "accepted") = .ok (st', u) ∧
      (⟨"a", "u1", "Alice", "a@x.com", "holiday", "trip",
          date 2024 1 1, date 2024 1 2, RequestStatus.accepted⟩ : EmployeeRequest) ∈ st' :=
  ⟨(patch_status_validation _ "a" "cancelled").1 rfl,
   (patch_status_validation _ "a" "accepted").2 RequestStatus.accepted rfl
      ⟨"a", "u1", "Alice", "a@x.com", "holiday", "trip",
        date 2024 1 1, date 2024 1 2, RequestStatus.denied⟩
      (by simp) rfl⟩

/-- Date comparison of JS `Date` objects (comparison of `getTime` values)
agrees with comparison of the epoch-day numbers. -/
theorem getTime_le_getTime {a b : Date} : getTime a ≤ getTime b ↔ a ≤ b := by
  unfold getTime
  exact mul_le_mul_iff_of_pos_right (by norm_num)

/-- C2: the admin (overlap-variant) date filter keeps a request iff its
interval `[startDate, endDate]` intersects the window — `startDate ≤ dateTo`
whenever `dateTo` is set and `dateFrom ≤ endDate` whenever `dateFrom` is set
— and, concretely, a request spanning 2024-01-01..2024-01-10 is kept for
the windows 2024-01-05..06, 2023-12-01..2024-01-02 and
2024-01-09..2024-02-01, and excluded for 2024-02-01..2024-03-01. -/
theorem admin_date_filter_overlap :
    (∀ (dateFrom dateTo : Option Date) (rs : List EmployeeRequest)
        (r : EmployeeRequest),
      r ∈ adminDateFilter dateFrom dateTo rs ↔
        r ∈ rs ∧ (∀ t ∈ dateTo, r.startDate ≤ t) ∧
          (∀ f ∈ dateFrom, f ≤ r.endDate)) ∧
    (⟨"s", "u1", "Alice", "a@x.com", "holiday", "trip",
        date 2024 1 1, date 2024 1 10, RequestStatus.pending⟩ : EmployeeRequest) ∈
      adminDateFilter (some (date 2024 1 5)) (some (date 2024 1 6))
        [⟨"s", "u1", "Alice", "a@x.com", "holiday", "trip",
          date 2024 1 1, date 2024 1 10, RequestStatus.pending⟩] ∧
    (⟨"s", "u1", "Alice", "a@x.com", "holiday", "trip",
        date 2024 1 1, date 2024 1 10, RequestStatus.pending⟩ : EmployeeRequest) ∈
      adminDateFilter (some (date 2023 12 1)) (some (date 2024 1 2))
        [⟨"s", "u1", "Alice", "a@x.com", "holiday", "trip",
          date 2024 1 1, date 2024 1 10, RequestStatus.pending⟩] ∧
    (⟨"s", "u1", "Alice", "a@x.com", "holiday", "trip",
        date 2024 1 1, date 2024 1 10, RequestStatus.pending⟩ : EmployeeRequest) ∈
      adminDateFilter (some (date 2024 1 9)) (some (date 2024 2 1))
        [⟨"s", "u1", "Alice", "a@x.com", "holiday", "trip",
          date 2024 1 1, date 2024 1 10, RequestStatus.pending⟩] ∧
    (⟨"s", "u1", "Alice", "a@x.com", "holiday", "trip",
        date 2024 1 1, date 2024 1 10, RequestStatus.pending⟩ : EmployeeRequest) ∉
      adminDateFilter (some (date 2024 2 1)) (some (date 2024 3 1))
        [⟨"s", "u1", "Alice", "a@x.com", "holiday", "trip",
          date 2024 1 1, date 2024 1 10, RequestStatus.pending⟩] := by
  refine ⟨?_, by decide, by decide, by decide, by decide⟩
  intro dateFrom dateTo rs r
  cases dateFrom <;> cases dateTo <;>
    simp [adminDateFilter, adminDateKeep, List.mem_filter, getTime_le_getTime]

/-- C9: the user (containment-variant) date filter keeps a request iff
`dateFrom ≤ startDate` whenever `dateFrom` is set and `endDate ≤ dateTo`
whenever `dateTo` is set; an unset bound imposes no constraint. -/
theorem user_date_filter_containment
    (dateFrom dateTo : Option Date) (rs : List EmployeeRequest)
    (r : EmployeeRequest) :
    r ∈ userDateFilter dateFrom dateTo rs ↔
      r ∈ rs ∧ (∀ f ∈ dateFrom, f ≤ r.startDate) ∧
        (∀ t ∈ dateTo, r.endDate ≤ t) := by
  cases dateFrom <;> cases dateTo <;>
    simp [userDateFilter, List.mem_filter, getTime_le_getTime] <;>
    tauto

/-- C8: `calculateDays` is the inclusive day count — one more than the
absolute difference of the two dates in days (of which the millisecond
`Math.ceil` computation is an exact rendering) — and on the spec's examples
gives 1 for a single-day request and 3 for 2024-06-10..2024-06-12. -/
theorem calculateDays_inclusive_count :
    (∀ s e : Date, calculateDays s e = (e - s).natAbs + 1) ∧
    calculateDays (date 2024 6 10) (date 2024 6 10) = 1 ∧
    calculateDays (date 2024 6 10) (date 2024 6 12) = 3 := by
  refine ⟨?_, by decide, by decide⟩
  intro s e
  unfold calculateDays mathCeilDiv getTime
  have h : e * 86400000 - s * 86400000 = (e - s) * 86400000 := by ring
  rw [h, Int.natAbs_mul]
  norm_num
  omega

/-- C10: a status update touches nothing but the `status` of the rows whose
id matches: position by position, the new store is the old one with exactly
that rewrite, every field other than `status` of every row is unchanged,
and rows whose id differs keep their status too. -/
theorem patch_updates_only_status
    (store : List EmployeeRequest) (id : String) (v : RequestStatus)
    (st' : List EmployeeRequest) (u : Option EmployeeRequest)
    (h : PATCH store id (some (statusStr v)) = .ok (st', u)) :
    (∀ i : Nat, st'[i]? = (store[i]?).map fun r =>
        if r.id = id then { r with status := v } else r) ∧
    (∀ i : Nat, ∀ r r', store[i]? = some r → st'[i]? = some r' →
      r'.id = r.id ∧ r'.userid = r.userid ∧ r'.name = r.name ∧
      r'.email = r.email ∧ r'.type = r.type ∧ r'.reason = r.reason ∧
      r'.startDate = r.startDate ∧ r'.endDate = r.endDate ∧
      (r.id ≠ id → r'.status = r.status)) := by
  have hv : parseStatus (statusStr v) = some v := by cases v <;> rfl
  have hs : statusStr v ≠ "" := by cases v <;> simp [statusStr]
  have hfalsy : falsy (some (statusStr v)) = false := by simp [falsy, hs]
  have hst : st' = store.map fun r =>
      if r.id = id then { r with status := v } else r := by
    simp only [PATCH, hfalsy, Bool.false_eq_true, if_false, Option.getD_some,
      hv] at h
    split at h
    · simp only [Except.ok.injEq, Prod.mk.injEq] at h
      exact h.1.symm
    · exact Except.noConfusion h
  subst hst
  refine ⟨fun i => List.getElem?_map .., ?_⟩
  intro i r r' hr hr'
  rw [List.getElem?_map, hr, Option.map_some'] at hr'
  have heq := Option.some.inj hr'
  by_cases hid : r.id = id
  · rw [if_pos hid] at heq
    subst heq
    exact ⟨rfl, rfl, rfl, rfl, rfl, rfl, rfl, rfl, fun hne => absurd hid hne⟩
  · rw [if_neg hid] at heq
    subst heq
    exact ⟨rfl, rfl, rfl, rfl, rfl, rfl, rfl, rfl, fun _ => rfl⟩

/-- Witness for C10: updating id `"a"` to `accepted` on a two-row store
rewrites row 0 (the matching one) and leaves row 1 untouched. -/
theorem patch_updates_only_status_witness :
    ([⟨"a", "u1", "Alice", "a@x.com", "holiday", "trip",
        date 2024 1 1, date 2024 1 2, RequestStatus.accepted⟩,
      ⟨"b", "u2", "Bob", "b@x.com", "other", "errand",
        date 2024 2 1, date 2024 2 3, RequestStatus.denied⟩] :
          List EmployeeRequest)[0]?
      = (([⟨"a", "u1", "Alice", "a@x.com", "holiday", "trip",
            date 2024 1 1, date 2024 1 2, RequestStatus.pending⟩,
          ⟨"b", "u2", "Bob", "b@x.com", "other", "errand",
            date 2024 2 1, date 2024 2 3, RequestStatus.denied⟩] :
              List EmployeeRequest)[0]?).map
          (fun r => if r.id = "a" then { r with status := RequestStatus.accepted } else r) ∧
    ([⟨"a", "u1", "Alice", "a@x.com", "holiday", "trip",
        date 2024 1 1, date 2024 1 2, RequestStatus.accepted⟩,
      ⟨"b", "u2", "Bob", "b@x.com", "other", "errand",
        date 2024 2 1, date 2024 2 3, RequestStatus.denied⟩] :
          List EmployeeRequest)[1]?
      = (([⟨"a", "u1", "Alice", "a@x.com", "holiday", "trip",
            date 2024 1 1, date 2024 1 2, RequestStatus.pending⟩,
          ⟨"b", "u2", "Bob", "b@x.com", "other", "errand",
            date 2024 2 1, date 2024 2 3, RequestStatus.denied⟩] :
              List EmployeeRequest)[1]?).map
          (fun r => if r.id = "a" then { r with status := RequestStatus.accepted } else r) :=
  ⟨(patch_updates_only_status
      [⟨"a", "u1", "Alice", "a@x.com", "holiday", "trip",
          date 2024 1 1, date 2024 1 2, RequestStatus.pending⟩,
       ⟨"b", "u2", "Bob", "b@x.com", "other", "errand",
          date 2024 2 1, date 2024 2 3, RequestStatus.denied⟩]
      "a" RequestStatus.accepted _ _ (by rfl)).1 0,
   (patch_updates_only_status
      [⟨"a", "u1", "Alice", "a@x.com", "holiday", "trip",
          date 2024 1 1, date 2024 1 2, RequestStatus.pending⟩,
       ⟨"b", "u2", "Bob", "b@x.com", "other", "errand",
          date 2024 2 1, date 2024 2 3, RequestStatus.denied⟩]
      "a" RequestStatus.accepted _ _ (by rfl)).1 1⟩
